import Mathlib

/-!
Verification of the hx HTTP framework's binding subsystem.

This file gives a shallow embedding, in Lean 4, of the parts of the
repository that the specification talks about:

* the content-type binder dispatcher `binding.Default` (together with the
  relevant behaviour of Go's `mime.ParseMediaType`),
* the reflection-driven struct binder `binding.mapTo` and its helpers
  (`setTo`, `setValue`, `bindSlice`, `bindPtrSlice`, `bindValueSlice`,
  `bindInt`, `bindUint`, `bindFloat`, `bindBool`),
* the single-value request extractors of `httpx` (path, header, query,
  form, cookie),
* the two-pass composition performed by `hx.ShouldBind`
  (whole-body binder, then `binding.GenericBinder`),
* a spec-modelled static-file route (the `Router.Static` implementation is
  not part of the sources at hand; only its test and the spec describe it).

Theorems about these definitions settle the specification claims.
-/

namespace Hx

/-! ## Go `mime` package: media-type parsing

The binder dispatcher calls `mime.ParseMediaType`.  The definitions below
translate the Go standard library functions `isTSpecial`, `isTokenChar`,
`consumeToken`, `consumeValue`, `consumeMediaParam`,
`checkMediaTypeDisposition` and the error-relevant part of
`ParseMediaType` (the parameter loop, including duplicate-parameter
detection), working on `List Char`.
-/

/-- Go `mime.isTSpecial`: rune is in `tspecials` of RFC 1521/2045. -/
def isTSpecial (c : Char) : Bool :=
  c = '(' || c = ')' || c = '<' || c = '>' || c = '@' || c = ',' || c = ';' ||
  c = ':' || c = '\\' || c = '"' || c = '/' || c = '[' || c = ']' || c = '?' || c = '='

/-- Go `mime.isTokenChar`: `r > 0x20 && r < 0x7f && !isTSpecial(r)`. -/
def isTokenChar (c : Char) : Bool :=
  0x20 < c.toNat && c.toNat < 0x7f && !isTSpecial c

/-- Go `unicode.IsSpace` (the White_Space code points). -/
def isSpaceGo (c : Char) : Bool :=
  c = ' ' || c = '\t' || c = '\n' || c = '\x0b' || c = '\x0c' || c = '\r' ||
  c.toNat = 0x85 || c.toNat = 0xa0 || c.toNat = 0x1680 ||
  (0x2000 ≤ c.toNat && c.toNat ≤ 0x200a) ||
  c.toNat = 0x2028 || c.toNat = 0x2029 || c.toNat = 0x202f ||
  c.toNat = 0x205f || c.toNat = 0x3000

/-- Go `strings.ToLower` restricted to ASCII case mapping.  Media types are
validated to consist of ASCII token characters, so this agrees with Go on
every string that passes `checkMediaTypeDisposition`. -/
def toLowerGo (c : Char) : Char :=
  if 'A' ≤ c ∧ c ≤ 'Z' then Char.ofNat (c.toNat + 32) else c

/-- Model of `strings.TrimLeftFunc(v, unicode.IsSpace)`. -/
def trimLeftSpace (l : List Char) : List Char := l.dropWhile isSpaceGo

/-- Model of `strings.TrimSpace`. -/
def trimSpace (l : List Char) : List Char :=
  ((trimLeftSpace l).reverse.dropWhile isSpaceGo).reverse

/-- Go `mime.consumeToken`: the longest token-character run and the rest. -/
def consumeToken (l : List Char) : List Char × List Char :=
  (l.takeWhile isTokenChar, l.dropWhile isTokenChar)

/-- Quoted-string scanning loop inside Go `mime.consumeValue`.  `none`
means the quoted string is unterminated or contains a bare CR/LF. -/
def consumeQuoted : List Char → List Char → Option (List Char × List Char)
  | [], _ => none
  | '"' :: rest, acc => some (acc.reverse, rest)
  | '\\' :: c :: rest, acc =>
    if isTSpecial c then consumeQuoted rest (c :: acc)
    else consumeQuoted (c :: rest) ('\\' :: acc)
  | c :: rest, acc =>
    if c = '\r' ∨ c = '\n' then none else consumeQuoted rest (c :: acc)
termination_by l _ => l.length
decreasing_by all_goals simp_arith [List.length]

/-- Go `mime.consumeValue`: a token, or a quoted string.  `none` models the
Go convention "returned value empty and rest unchanged" (parse failure). -/
def consumeValue (v : List Char) : Option (List Char × List Char) :=
  match v with
  | [] => none
  | '"' :: rest => consumeQuoted rest []
  | _ =>
    let (tok, rest) := consumeToken v
    if tok = [] then none else some (tok, rest)

/-- Go `mime.consumeMediaParam`: `; key = value` with optional spaces.
Returns the (lower-cased) key, the value, and the rest; `none` models the
Go "empty key" failure return. -/
def consumeMediaParam (v : List Char) : Option (List Char × List Char × List Char) :=
  match trimLeftSpace v with
  | ';' :: rest1 =>
    let rest2 := trimLeftSpace rest1
    let (param, rest3) := consumeToken rest2
    let param := param.map toLowerGo
    if param = [] then none
    else
      match trimLeftSpace rest3 with
      | '=' :: rest5 =>
        let rest6 := trimLeftSpace rest5
        match consumeValue rest6 with
        | none => none
        | some (value, rest7) => some (param, value, rest7)
      | _ => none
  | _ => none

/-- Go `mime.checkMediaTypeDisposition`: `token` or `token "/" token`,
nothing after.  `true` means no error. -/
def checkMediaTypeDisposition (s : List Char) : Bool :=
  let (typ, rest) := consumeToken s
  if typ = [] then false
  else if rest = [] then true
  else
    match rest with
    | '/' :: rest1 =>
      let (subtype, rest2) := consumeToken rest1
      if subtype = [] then false else rest2 = []
    | _ => false

/-- One association list per continuation base name, as built by the Go
parameter loop of `ParseMediaType`. -/
abbrev ContMap := List (List Char × List (List Char × List Char))

/-- Parameter loop of Go `mime.ParseMediaType`, reduced to its
error-relevance: returns `true` exactly when the loop finishes without a
parse error (invalid parameter or duplicate parameter with a different
value).  `params` collects plain parameters, `cont` the `name*section`
continuation parameters keyed by base name, mirroring the Go maps.  The
loop consumes at least one character per iteration, so the explicit fuel
(seeded with the remaining length plus one) never runs out. -/
def paramLoop : Nat → List Char → List (List Char × List Char) → ContMap → Bool
  | 0, _, _, _ => false
  | fuel + 1, v, params, cont =>
    let v' := trimLeftSpace v
    if v' = [] then true
    else
      match consumeMediaParam v' with
      | none => trimSpace v' = [';']
      | some (key, value, rest) =>
        if key.contains '*' then
          let base := key.takeWhile (· ≠ '*')
          let pmap := ((cont.lookup base).getD [])
          match pmap.lookup key with
          | some v0 =>
            if v0 = value then paramLoop fuel rest params cont else false
          | none =>
            paramLoop fuel rest params
              ((base, (key, value) :: pmap) :: cont.eraseP (fun p => p.1 = base))
        else
          match params.lookup key with
          | some v0 =>
            if v0 = value then paramLoop fuel rest params cont else false
          | none => paramLoop fuel rest ((key, value) :: params) cont

/-- Go `mime.ParseMediaType`, reduced to what `binding.Default` consumes:
`some mediatype` when `err == nil`, `none` when the function reports an
error.  The media type is the lower-cased, space-trimmed text before the
first `;`, validated as `token["/"token]`; parameters are then parsed and
can still fail the whole call. -/
def parseMediaType (v : String) : Option String :=
  let base := v.data.takeWhile (· ≠ ';')
  let mediatype := trimSpace (base.map toLowerGo)
  if checkMediaTypeDisposition mediatype then
    let rest := v.data.drop base.length
    if paramLoop rest.length.succ rest [] [] then some (String.mk mediatype) else none
  else none

/-! ## `binding.Default`: the binder dispatcher -/

/-- The four binder strategies returned by `binding.Default`
(`jsonBinder`, `xmlBinder`, `formBinder`, `queryBinder`). -/
inductive BinderKind where
  | json | xml | form | query
deriving DecidableEq, Repr

/-- Model of `binding.MIMEJSON`. -/
def MIMEJSON : String := "application/json"
/-- Model of `binding.MIMEMultipartForm`. -/
def MIMEMultipartForm : String := "multipart/form-data"
/-- Model of `binding.MIMEPOSTForm`. -/
def MIMEPOSTForm : String := "application/x-www-form-urlencoded"
/-- Model of `binding.XMLMIME`. -/
def XMLMIME : String := "application/xml"

/-- Translation of `binding.Default(method, contentType)`.  GET always
dispatches to the query binder; otherwise the parsed media type is
matched (Go lower-cases the already lower-cased parse result again, a
no-op) and unknown or unparseable content types fall back to the query
binder. -/
def Default (method contentType : String) : BinderKind :=
  if method = "GET" then .query
  else
    match parseMediaType contentType with
    | none => .query
    | some mediaType =>
      if mediaType = MIMEJSON then .json
      else if mediaType = XMLMIME then .xml
      else if mediaType = MIMEMultipartForm ∨ mediaType = MIMEPOSTForm then .form
      else .query

example : parseMediaType "application/json" = some "application/json" := by decide
example : parseMediaType "Application/JSON; charset=UTF-8" = some "application/json" := by decide
example : parseMediaType "multipart/form-data; boundary=something" = some "multipart/form-data" := by decide
example : parseMediaType "" = none := by decide
example : parseMediaType "application/json; charset" = none := by decide
example : Default "POST" "MULTIPART/FORM-DATA; boundary=x" = .form := by decide
example : Default "GET" "application/json" = .query := by decide
example : Default "POST" "text/html" = .query := by decide

/-! ## Go `strconv` parsing functions

`bindInt`, `bindUint`, `bindFloat` and `bindBool` call
`strconv.ParseInt/ParseUint/ParseFloat/ParseBool` with base 10.  The
models below return `none` exactly when the Go function returns a
non-nil error (syntax or range), which is all that the binder observes.
-/

/-- Decimal digit run: `some n` when the list is non-empty and all
characters are ASCII digits, as accepted by `strconv.ParseUint` at base
10 (underscores are rejected at base 10). -/
def digitsVal : List Char → Option Nat
  | [] => none
  | [c] => if c.isDigit then some (c.toNat - '0'.toNat) else none
  | c :: rest =>
    if c.isDigit then
      (digitsVal rest).map (fun n => (c.toNat - '0'.toNat) * 10 ^ rest.length + n)
    else none

/-- Model of `strconv.ParseUint(s, 10, bitSize)`: no sign allowed; value must fit
in `bitSize` bits (`bitSize` 0 means the 64-bit platform `uint`). -/
def parseUintGo (s : String) (bitSize : Nat) : Option Nat :=
  let b := if bitSize = 0 then 64 else bitSize
  match digitsVal s.data with
  | none => none
  | some n => if n < 2 ^ b then some n else none

/-- Model of `strconv.ParseInt(s, 10, bitSize)`: optional sign, then digits; value
must lie in the signed `bitSize`-bit range. -/
def parseIntGo (s : String) (bitSize : Nat) : Option Int :=
  let b := if bitSize = 0 then 64 else bitSize
  match s.data with
  | [] => none
  | c :: rest =>
    let (neg, ds) :=
      if c = '+' then (false, rest)
      else if c = '-' then (true, rest)
      else (false, c :: rest)
    match digitsVal ds with
    | none => none
    | some n =>
      if neg then (if n ≤ 2 ^ (b - 1) then some (-(n : Int)) else none)
      else (if n < 2 ^ (b - 1) then some (n : Int) else none)

/-- Model of `strconv.ParseBool`: the exact accepted spellings. -/
def parseBoolGo (s : String) : Option Bool :=
  if s = "1" ∨ s = "t" ∨ s = "T" ∨ s = "true" ∨ s = "TRUE" ∨ s = "True" then some true
  else if s = "0" ∨ s = "f" ∨ s = "F" ∨ s = "false" ∨ s = "FALSE" ∨ s = "False" then some false
  else none

/-- Exponent part of a Go float literal: optional sign then digits. -/
def floatExpOk (l : List Char) : Bool :=
  match l with
  | '+' :: ds => ds ≠ [] && ds.all Char.isDigit
  | '-' :: ds => ds ≠ [] && ds.all Char.isDigit
  | ds => ds ≠ [] && ds.all Char.isDigit

/-- Mantissa of a decimal Go float literal: digits with at most one dot
and at least one digit. -/
def floatMantissaOk (l : List Char) : Bool :=
  let intPart := l.takeWhile Char.isDigit
  match l.drop intPart.length with
  | [] => intPart ≠ []
  | '.' :: frac => (intPart ≠ [] || frac ≠ []) && frac.all Char.isDigit
  | _ => false

/-- Acceptance model of `strconv.ParseFloat(s, bitSize)`: `some s` when Go
returns a nil error.  Decimal and inf/nan forms are modelled; the
hex-float and digit-separator forms of Go literals, and the overflow
(`ErrRange`) cases, are not reachable from any claim and are treated as
accepted decimal syntax only. -/
def parseFloatGo (s : String) : Option String :=
  let lower := String.mk (s.data.map toLowerGo)
  if lower = "inf" ∨ lower = "+inf" ∨ lower = "-inf" ∨
     lower = "infinity" ∨ lower = "+infinity" ∨ lower = "-infinity" ∨
     lower = "nan" then some s
  else
    let l :=
      match s.data with
      | '+' :: rest => rest
      | '-' :: rest => rest
      | l => l
    let mant := l.takeWhile (fun c => c.isDigit || c = '.')
    let rest := l.drop mant.length
    if floatMantissaOk mant then
      match rest with
      | [] => some s
      | 'e' :: e => if floatExpOk e then some s else none
      | 'E' :: e => if floatExpOk e then some s else none
      | _ => none
    else none

/-! ## `binding` package: the struct binder `mapTo`

The destination struct is modelled by a list of fields; each field
carries its declared Go name, its `form` tag (the result of
`Tag.Get("form")`, which is `""` both for an absent and for an empty
tag), its type, and its current value.  `url.Values` is modelled as an
association list with (by construction in Go) pairwise-distinct keys.

Because Go's binder mutates the destination in place and can return an
error after a prefix of the fields has been written, every operation
returns the post-call value alongside an optional error.
-/

/-- The Go kinds the binder dispatches on.  `int`/`uint`/`float` carry the
Go `bitSize` argument (0 for platform-sized `int`/`uint`, otherwise the
width).  `other` covers every kind that `setValue`'s switch does not
handle (struct, map, chan, func, interface, ...), carrying the kind's
name as printed by `reflect.Kind.String`. -/
inductive GoType where
  | string
  | int (bitSize : Nat)
  | uint (bitSize : Nat)
  | float (bitSize : Nat)
  | bool
  | ptr (elem : GoType)
  | slice (elem : GoType)
  | other (kindName : String)
deriving DecidableEq, Repr

/-- Runtime values of the modelled Go types.  Floats store the accepted
source text (their numeric value is never observed by the binder).
Values of unsupported kinds are opaque tags. -/
inductive GoValue where
  | str (s : String)
  | intV (n : Int)
  | uintV (n : Nat)
  | floatV (text : String)
  | boolV (b : Bool)
  | ptrV (v : Option GoValue)
  | sliceV (vs : List GoValue)
  | otherV (tag : String)

/-- Model of `reflect.Zero(t)`. -/
def zeroValue : GoType → GoValue
  | .string => .str ""
  | .int _ => .intV 0
  | .uint _ => .uintV 0
  | .float _ => .floatV "0"
  | .bool => .boolV false
  | .ptr _ => .ptrV none
  | .slice _ => .sliceV []
  | .other _ => .otherV ""

/-- Model of `reflect.Kind.String` for the modelled types. -/
def kindName : GoType → String
  | .string => "string"
  | .int 8 => "int8"
  | .int 16 => "int16"
  | .int 32 => "int32"
  | .int 64 => "int64"
  | .int _ => "int"
  | .uint 8 => "uint8"
  | .uint 16 => "uint16"
  | .uint 32 => "uint32"
  | .uint 64 => "uint64"
  | .uint _ => "uint"
  | .float 32 => "float32"
  | .float _ => "float64"
  | .bool => "bool"
  | .ptr _ => "ptr"
  | .slice _ => "slice"
  | .other k => k

/-- One struct field: declared name, `form` tag, type and current value. -/
structure GoField where
  name : String
  tag : String
  type : GoType
  value : GoValue

/-- Model of `url.Values`: string-keyed multi-values. -/
abbrev Values := List (String × List String)

/-- Errors produced inside a single field conversion, before the field
name is attached (`ErrUnsupportedType`/`ErrTooManyFields` and the
`parsing int:`/`binding slice element i:` wrappings). -/
inductive ConvError where
  | unsupportedType (kind : String)
  | parseFailure (what : String) (input : String)
  | tooManyFields
  | sliceElem (index : Nat) (inner : ConvError)
deriving DecidableEq, Repr

/-- The errors `mapTo` can return: the three typed sentinel errors plus a
conversion error wrapped with the offending field's declared name
(`binding field %q: %w`). -/
inductive BindError where
  | pointerRequired
  | structRequired
  | tooManyFields
  | fieldError (fieldName : String) (inner : ConvError)
deriving DecidableEq, Repr

/-- Model of `binding.maxFields`. -/
def maxFields : Nat := 1000

/-- Go `cmp.Or`: the first non-zero (here: non-empty) argument. -/
def cmpOr : List String → String
  | [] => ""
  | v :: rest => if v ≠ "" then v else cmpOr rest

/-- The lookup key `mapTo` computes for a field:
`cmp.Or(f.Tag.Get("form"), f.Name)`. -/
def resolveKey (f : GoField) : String := cmpOr [f.tag, f.name]

/-- Model of `bindInt`: empty strings never reach it through `setValue`, but the Go
function itself zeroes on empty input; on parse failure the field keeps
its value and a wrapped `parsing int:` error is produced. -/
def bindInt (v : GoValue) (formValue : String) (bitSize : Nat) : GoValue × Option ConvError :=
  if formValue = "" then (.intV 0, none)
  else
    match parseIntGo formValue bitSize with
    | some n => (.intV n, none)
    | none => (v, some (.parseFailure "int" formValue))

/-- Model of `bindUint`. -/
def bindUint (v : GoValue) (formValue : String) (bitSize : Nat) : GoValue × Option ConvError :=
  if formValue = "" then (.uintV 0, none)
  else
    match parseUintGo formValue bitSize with
    | some n => (.uintV n, none)
    | none => (v, some (.parseFailure "uint" formValue))

/-- Model of `bindFloat`. -/
def bindFloat (v : GoValue) (formValue : String) (_bitSize : Nat) : GoValue × Option ConvError :=
  if formValue = "" then (.floatV "0", none)
  else
    match parseFloatGo formValue with
    | some t => (.floatV t, none)
    | none => (v, some (.parseFailure "float" formValue))

/-- Model of `bindBool`. -/
def bindBool (v : GoValue) (formValue : String) : GoValue × Option ConvError :=
  if formValue = "" then (.boolV false, none)
  else
    match parseBoolGo formValue with
    | some b => (.boolV b, none)
    | none => (v, some (.parseFailure "bool" formValue))

/-- Model of `setValue(field, formValue)`: an empty string zeroes the field (for
every kind, including unsupported ones); otherwise the kind switch either
parses the string or fails with `ErrUnsupportedType` wrapped with the
kind's name. -/
def setValue (t : GoType) (v : GoValue) (formValue : String) : GoValue × Option ConvError :=
  if formValue = "" then (zeroValue t, none)
  else
    match t with
    | .string => (.str formValue, none)
    | .int w => bindInt v formValue w
    | .uint w => bindUint v formValue w
    | .float w => bindFloat v formValue w
    | .bool => bindBool v formValue
    | t => (v, some (.unsupportedType (kindName t)))

/-- Elements of `bindValueSlice`: each slice slot starts as the zero value
of the element type and is filled with `setValue`; the first failing
element aborts with a `binding slice element i:` wrapping. -/
def bindValueSliceElems (t : GoType) (i : Nat) : List String → Except ConvError (List GoValue)
  | [] => .ok []
  | s :: rest =>
    match setValue t (zeroValue t) s with
    | (_, some e) => .error (.sliceElem i e)
    | (v', none) =>
      match bindValueSliceElems t (i + 1) rest with
      | .error e => .error e
      | .ok vs => .ok (v' :: vs)

/-- Model of `bindValueSlice`: on success the whole new slice is stored; on failure
the field is untouched. -/
def bindValueSlice (t : GoType) (v : GoValue) (formValue : List String) : GoValue × Option ConvError :=
  match bindValueSliceElems t 0 formValue with
  | .error e => (v, some e)
  | .ok vs => (.sliceV vs, none)

/-- Model of `bindPtrSlice`: like `bindValueSlice` but each element is a freshly
allocated pointer whose pointee is set with `setValue`. -/
def bindPtrSlice (t : GoType) (v : GoValue) (formValue : List String) : GoValue × Option ConvError :=
  match bindValueSliceElems t 0 formValue with
  | .error e => (v, some e)
  | .ok vs => (.sliceV (vs.map (fun x => .ptrV (some x))), none)

/-- Model of `bindSlice`: the DoS guard on the element count, then the dispatch on
the element kind (string slices verbatim, pointer-element slices through
`bindPtrSlice`, everything else through `bindValueSlice`). -/
def bindSlice (elemT : GoType) (v : GoValue) (formValue : List String) : GoValue × Option ConvError :=
  if maxFields < formValue.length then (v, some .tooManyFields)
  else
    match elemT with
    | .string => (.sliceV (formValue.map .str), none)
    | .ptr inner => bindPtrSlice inner v formValue
    | _ => bindValueSlice elemT v formValue

/-- Body of `setTo` after the one-level pointer dereference: slices go to
`bindSlice`; otherwise an empty value list zeroes the field and a
non-empty one feeds its first element to `setValue`. -/
def setToElem (t : GoType) (v : GoValue) (value : List String) : GoValue × Option ConvError :=
  match t with
  | .slice elemT => bindSlice elemT v value
  | _ =>
    match value with
    | [] => (zeroValue t, none)
    | s :: _ => setValue t v s

/-- Model of `setTo(field, value)`: a pointer field is allocated when nil and then
dereferenced exactly once; the (possibly partially mutated) new value is
returned alongside the error, matching the in-place mutation of the Go
code. -/
def setTo (t : GoType) (v : GoValue) (value : List String) : GoValue × Option ConvError :=
  match t with
  | .ptr elemT =>
    let inner :=
      match v with
      | .ptrV (some iv) => iv
      | _ => zeroValue elemT
    let (iv', e) := setToElem elemT inner value
    (.ptrV (some iv'), e)
  | _ => setToElem t v value

/-- One iteration of the `mapTo` field loop: key resolution via `cmp.Or`,
the `-` skip, the `values[tag]` lookup, and the `binding field %q:`
wrapping of conversion errors. -/
def bindField (values : Values) (f : GoField) : GoField × Option BindError :=
  let key := resolveKey f
  if key = "-" then (f, none)
  else
    match values.lookup key with
    | none => (f, none)
    | some vs =>
      ({ f with value := (setTo f.type f.value vs).1 },
        (setTo f.type f.value vs).2.map (BindError.fieldError f.name))

/-- The field loop of `mapTo`: fields are processed in declaration order
and the first error aborts the loop, leaving every later field
untouched. -/
def mapFields (values : Values) : List GoField → List GoField × Option BindError
  | [] => ([], none)
  | f :: rest =>
    match bindField values f with
    | (f', some err) => (f' :: rest, some err)
    | (f', none) =>
      let res := mapFields values rest
      (f' :: res.1, res.2)

/-- The destination argument of `mapTo` as seen through `reflect`:
not a pointer at all, a nil pointer (whose `Elem` has kind `Invalid`),
a pointer to a non-struct, or a pointer to a struct. -/
inductive GoDest where
  | nonPtr (kindName : String)
  | nilPtr
  | ptrToNonStruct (kindName : String)
  | ptrToStruct (fields : List GoField)

/-- Model of `binding.mapTo(values, dest)`: the `maxFields` guard on the number of
(distinct) keys, the pointer and struct checks, then the field loop.  The
returned destination reflects the in-place mutation. -/
def mapTo (values : Values) (dest : GoDest) : GoDest × Option BindError :=
  if maxFields < values.length then (dest, some .tooManyFields)
  else
    match dest with
    | .nonPtr _ => (dest, some .pointerRequired)
    | .nilPtr => (dest, some .structRequired)
    | .ptrToNonStruct _ => (dest, some .structRequired)
    | .ptrToStruct fields =>
      let res := mapFields values fields
      (.ptrToStruct res.1, res.2)

example :
    mapTo [("age", ["17"]), ("name", ["amy"])]
      (.ptrToStruct [⟨"Name", "name", .string, .str ""⟩, ⟨"Age", "age", .int 0, .intV 0⟩]) =
    (.ptrToStruct [⟨"Name", "name", .string, .str "amy"⟩, ⟨"Age", "age", .int 0, .intV 17⟩], none) := rfl

example :
    mapTo [("age", ["abc"])]
      (.ptrToStruct [⟨"Age", "age", .int 0, .intV 5⟩]) =
    (.ptrToStruct [⟨"Age", "age", .int 0, .intV 5⟩],
      some (.fieldError "Age" (.parseFailure "int" "abc"))) := rfl

example :
    mapTo [("s", [""])]
      (.ptrToStruct [⟨"S", "s", .other "struct", .otherV "old"⟩]) =
    (.ptrToStruct [⟨"S", "s", .other "struct", .otherV ""⟩], none) := rfl

example :
    mapTo [("xs", ["1", "2"])]
      (.ptrToStruct [⟨"Xs", "xs", .slice (.ptr (.int 0)), .sliceV []⟩]) =
    (.ptrToStruct [⟨"Xs", "xs", .slice (.ptr (.int 0)),
      .sliceV [.ptrV (some (.intV 1)), .ptrV (some (.intV 2))]⟩], none) := rfl

/-! ## `httpx`: the single-value request extractors

An inbound `*http.Request` is modelled by the lookups the extractors
perform: `Request.PathValue`, `Header.Get`, `URL.Query().Get`,
`Request.FormValue` and `Request.Cookie`.  The first four return the
empty string when the name is absent; `Request.Cookie` returns
`http.ErrNoCookie`.
-/

/-- The parts of `*http.Request` that the extractors read.  Multi-valued
query and form data keep their value lists; cookies are name/value
pairs. -/
structure Request where
  method : String
  contentType : String
  pathParams : List (String × String)
  headers : List (String × String)
  queryParams : List (String × List String)
  formParams : List (String × List String)
  cookies : List (String × String)

/-- Model of `Request.PathValue(name)`: the matched route segment, `""` if none. -/
def Request.pathValue (r : Request) (name : String) : String :=
  (r.pathParams.lookup name).getD ""

/-- Model of `Header.Get(name)`: first value or `""`. -/
def Request.headerGet (r : Request) (name : String) : String :=
  (r.headers.lookup name).getD ""

/-- Model of `url.Values.Get(name)`: first value of the key, `""` when the key is
absent or its list empty. -/
def Request.queryGet (r : Request) (name : String) : String :=
  match r.queryParams.lookup name with
  | some (v :: _) => v
  | _ => ""

/-- Model of `Request.FormValue(name)`: first value of the parsed form (body and
query merged by the standard parser), `""` when absent. -/
def Request.formValue (r : Request) (name : String) : String :=
  match r.formParams.lookup name with
  | some (v :: _) => v
  | _ => ""

/-- Model of `Request.Cookie(name)`: the first cookie with that name, if any. -/
def Request.cookie (r : Request) (name : String) : Option String :=
  r.cookies.lookup name

/-- The error text of `http.ErrNoCookie`. -/
def ErrNoCookie : String := "http: named cookie not present"

/-- Model of `PathValueExtractor.FromRequest`: stores the path value; never
fails. The result models the stored `value` field on success. -/
def PathValueExtractor.FromRequest (name : String) (r : Request) : Except String String :=
  .ok (r.pathValue name)

/-- Model of `HeaderValueExtractor.FromRequest`: stores the header value; never
fails. -/
def HeaderValueExtractor.FromRequest (name : String) (r : Request) : Except String String :=
  .ok (r.headerGet name)

/-- Model of `QueryValueExtractor.FromRequest`: stores the query value; never
fails. -/
def QueryValueExtractor.FromRequest (name : String) (r : Request) : Except String String :=
  .ok (r.queryGet name)

/-- Model of `FormValueExtractor.FromRequest`: stores the form value; never
fails. -/
def FormValueExtractor.FromRequest (name : String) (r : Request) : Except String String :=
  .ok (r.formValue name)

/-- Model of `CookieValueExtractor.FromRequest`: propagates the `Request.Cookie`
error when the cookie is missing, otherwise stores its value. -/
def CookieValueExtractor.FromRequest (name : String) (r : Request) : Except String String :=
  match r.cookie name with
  | none => .error ErrNoCookie
  | some v => .ok v

/-! ## `hx.ShouldBind` and `binding.GenericBinder`

`ShouldBind` first runs the whole-body binder chosen by
`binding.Default` and then the `GenericBinder` pass.  The whole-body
binder's effect on the destination struct is a parameter here (for JSON
and XML it is a standard-library decoder); the struct is a list of
fields, each carrying its static extraction contract (whether the
field's type implements `httpx.RequestExtractor`, and its `FromRequest`
behaviour) together with its current value.
-/

/-- The static information `GenericBinder.Bind` reads off a field's type:
whether (a pointer to) it implements `httpx.RequestExtractor`, and the
`FromRequest` method itself, which on success returns the value it
stores into the field. -/
structure ExtractorSpec where
  isExtractor : Bool
  extract : Request → Except String String

/-- A destination struct for `ShouldBind`: per-field static spec and
current value. -/
abbrev BindStruct := List (ExtractorSpec × String)

/-- Model of `GenericBinder.Bind`: iterate the fields in order; for each field
whose type implements `RequestExtractor`, call `FromRequest` (writing the
extracted value over whatever the field currently holds), aborting on the
first failure; other fields are left untouched. -/
def GenericBinder.Bind (r : Request) : BindStruct → Except String BindStruct
  | [] => .ok []
  | (f, v) :: rest =>
    if f.isExtractor then
      match f.extract r with
      | .error e => .error e
      | .ok v' =>
        match GenericBinder.Bind r rest with
        | .error e => .error e
        | .ok vs => .ok ((f, v') :: vs)
    else
      match GenericBinder.Bind r rest with
      | .error e => .error e
      | .ok vs => .ok ((f, v) :: vs)

/-- Model of `hx.ShouldBind`: run the whole-body binder selected from the method
and Content-Type (its effect on the struct is the `bodyBind` parameter),
and only if it succeeds run the `GenericBinder` pass over the result. -/
def ShouldBind (bodyBind : Request → BindStruct → Except String BindStruct)
    (r : Request) (s : BindStruct) : Except String BindStruct :=
  match bodyBind r s with
  | .error e => .error e
  | .ok mid => GenericBinder.Bind r mid

/-! ## Static file serving (spec-modelled)

The `Router.Static` implementation is code of this repository that is not
among the sources at hand: only its test (`TestRouterStatic`) and the
spec sentence "Static file serving: mounts a filesystem-backed handler
under a given path prefix, including under a group prefix" describe it.
The handler below is modelled from the spec: a GET request whose path
extends the mount point resolves the remainder against the mounted
filesystem and answers 200 with the file's exact contents, 404
otherwise.  `joinPath` is translated from the router source.
-/

/-- Model of `hx.joinPath`: join two path segments with exactly one slash between
them (translated from the router source). -/
def joinPath (a b : List Char) : List Char :=
  let aslash := a.getLast? = some '/'
  let bslash := b.head? = some '/'
  if aslash ∧ bslash then a ++ b.tail
  else if ¬aslash ∧ ¬bslash then a ++ '/' :: b
  else a ++ b

/-- A mounted filesystem: file names (relative to the mount point) with
their contents. -/
abbrev FileSys := List (List Char × String)

/-- Modelled from the spec: the handler mounted by `Router.Static` under
the full mount path (the router's base path joined with the given route
path).  It serves GET requests strictly below the mount path, returning
status 200 with the file's contents when the remainder of the request
path names a mounted file, and 404 otherwise; requests outside the mount
are not for this handler (`none`). -/
def staticServe (mountPath : List Char) (fs : FileSys) (method reqPath : List Char) :
    Option (Nat × String) :=
  if method = "GET".data ∧ (mountPath ++ ['/']).isPrefixOf reqPath then
    match fs.lookup (reqPath.drop (mountPath.length + 1)) with
    | some content => some (200, content)
    | none => some (404, "404 page not found")
  else none

example :
    staticServe (joinPath "/".data "/static".data) [("test.txt".data, "hello static world")]
      "GET".data "/static/test.txt".data = some (200, "hello static world") := by decide

example :
    staticServe (joinPath "/api".data "/assets".data) [("test.txt".data, "hello static world")]
      "GET".data "/api/assets/test.txt".data = some (200, "hello static world") := by decide

/-! ## Claim C1: the binder dispatcher -/

/-- Claim C1: for every HTTP method and Content-Type header value, the
dispatcher returns the query binder when the method is GET (regardless of
content type) or when the content type is unparseable; for non-GET
methods it returns the binder given by the parsed (lower-cased,
parameter-stripped) media type: JSON for `application/json`, XML for
`application/xml`, form for `multipart/form-data` and
`application/x-www-form-urlencoded`, and the query binder for anything
else.  The concrete conjuncts exhibit case-insensitivity and the
irrelevance of media-type parameters such as the multipart boundary. -/
theorem default_binder_dispatch :
    (∀ ct : String, Default "GET" ct = .query) ∧
    (∀ m ct : String, m ≠ "GET" → parseMediaType ct = none → Default m ct = .query) ∧
    (∀ m ct mt : String, m ≠ "GET" → parseMediaType ct = some mt →
      Default m ct =
        (if mt = "application/json" then .json
         else if mt = "application/xml" then .xml
         else if mt = "multipart/form-data" ∨ mt = "application/x-www-form-urlencoded" then .form
         else .query)) ∧
    (∀ m : String, Default m "Application/JSON; charset=UTF-8" = if m = "GET" then .query else .json) ∧
    (∀ m : String, Default m "APPLICATION/XML" = if m = "GET" then .query else .xml) ∧
    (∀ m : String, Default m "multipart/form-data; boundary=something" =
      if m = "GET" then .query else .form) ∧
    (∀ m : String, Default m "Application/X-WWW-Form-URLEncoded" =
      if m = "GET" then .query else .form) ∧
    (∀ m : String, Default m "text/html" = if m = "GET" then .query else .query) ∧
    (∀ m : String, Default m "" = .query) ∧
    (∀ m : String, Default m "application/json; charset" = .query) := by
  refine ⟨fun ct => rfl, ?_, ?_, ?_, ?_, ?_, ?_, ?_, ?_, ?_⟩
  · intro m ct hm hp
    unfold Default
    rw [if_neg hm, hp]
  · intro m ct mt hm hp
    unfold Default
    rw [if_neg hm, hp]
    rfl
  all_goals
    intro m
    by_cases h : m = "GET"
    · subst h; rfl
    · unfold Default
      rw [if_neg h]
      first
      | rw [if_neg h]
      | skip
      rfl

/-- Witness for C1: conjuncts with hypotheses applied at concrete
inputs. -/
theorem default_binder_dispatch_witness :
    Default "POST" "application/json junk" = .query ∧
    Default "PUT" "Application/JSON; charset=UTF-8" = .json := by
  constructor
  · exact default_binder_dispatch.2.1 "POST" _ (by decide) (by rfl)
  · have h := default_binder_dispatch.2.2.1 "PUT" "Application/JSON; charset=UTF-8"
      "application/json" (by decide) (by rfl)
    simpa using h

/-! ## Claim C3: the denial-of-service guards -/

/-- Helper: every error produced inside `bindField` carries the field's
name (it is a `fieldError`), never a bare sentinel error. -/
theorem bindField_error_shape (values : Values) (f : GoField) (e : BindError)
    (he : (bindField values f).2 = some e) : ∃ n i, e = BindError.fieldError n i := by
  simp only [bindField] at he
  split at he
  · simp at he
  · split at he
    · simp at he
    · simp only [Option.map_eq_some'] at he
      obtain ⟨i, _, hi⟩ := he
      exact ⟨f.name, i, hi.symm⟩

/-- Helper: every error produced by the field loop is a `fieldError`. -/
theorem mapFields_error_shape (values : Values) :
    ∀ (fields : List GoField) (e : BindError), (mapFields values fields).2 = some e →
      ∃ n i, e = BindError.fieldError n i := by
  intro fields
  induction fields with
  | nil => intro e he; simp [mapFields] at he
  | cons f rest ih =>
    intro e he
    unfold mapFields at he
    cases hb : bindField values f with
    | mk f' eo =>
      rw [hb] at he
      cases eo with
      | some err =>
        simp at he
        subst he
        exact bindField_error_shape values f err (by rw [hb])
      | none =>
        simp at he
        exact ih e he

/-- Claim C3: `mapTo` rejects any input with more than 1000 distinct keys
with the bare too-many-fields error (for every destination), passes that
check at exactly 1000 keys (the bare too-many-fields error is then
impossible), and `bindSlice` independently rejects any single value list
longer than 1000 elements, which `bindField` surfaces as a
field-wrapped too-many-fields error. -/
theorem mapTo_maxFields_guard :
    (∀ (values : Values) (dest : GoDest), (values.map Prod.fst).Nodup →
      maxFields < values.length → mapTo values dest = (dest, some .tooManyFields)) ∧
    (∀ (values : Values) (dest : GoDest), values.length = maxFields →
      (mapTo values dest).2 ≠ some BindError.tooManyFields) ∧
    (∀ (elemT : GoType) (v : GoValue) (vs : List String), maxFields < vs.length →
      bindSlice elemT v vs = (v, some .tooManyFields)) ∧
    (∀ (values : Values) (f : GoField) (elemT : GoType) (vs : List String),
      resolveKey f ≠ "-" → f.type = .slice elemT →
      values.lookup (resolveKey f) = some vs → maxFields < vs.length →
      (bindField values f).2 = some (.fieldError f.name .tooManyFields)) := by
  refine ⟨?_, ?_, ?_, ?_⟩
  · intro values dest _ h
    unfold mapTo
    rw [if_pos h]
  · intro values dest h hcontra
    have hlt : ¬ maxFields < values.length := by omega
    unfold mapTo at hcontra
    rw [if_neg hlt] at hcontra
    cases dest with
    | nonPtr k => simp at hcontra
    | nilPtr => simp at hcontra
    | ptrToNonStruct k => simp at hcontra
    | ptrToStruct fields =>
      simp at hcontra
      obtain ⟨n, i, hni⟩ := mapFields_error_shape values fields _ hcontra
      simp at hni
  · intro elemT v vs h
    unfold bindSlice
    rw [if_pos h]
  · intro values f elemT vs hk ht hv h
    have hset : setTo f.type f.value vs = (f.value, some ConvError.tooManyFields) := by
      rw [ht]
      show bindSlice elemT f.value vs = _
      unfold bindSlice
      rw [if_pos h]
    unfold bindField
    rw [if_neg hk, hv]
    simp [hset]

/-- Key sets used by the C3 witness: `n` pairwise-distinct keys. -/
def manyKeys (n : Nat) : Values :=
  (List.range n).map (fun i => (String.mk (List.replicate i 'a'), ["x"]))

/-- The C3 witness key lists indeed have pairwise-distinct keys. -/
theorem manyKeys_nodup (n : Nat) : ((manyKeys n).map Prod.fst).Nodup := by
  have hinj : Function.Injective (fun i : Nat => String.mk (List.replicate i 'a')) := by
    intro a b h
    have := congrArg String.length h
    simpa [String.length] using this
  unfold manyKeys
  rw [List.map_map]
  exact (List.nodup_range n).map hinj

/-- Witness for C3: the guard theorems applied at concrete inputs. -/
theorem mapTo_maxFields_guard_witness :
    mapTo (manyKeys 1001) .nilPtr = (.nilPtr, some .tooManyFields) ∧
    (mapTo (manyKeys 1000) .nilPtr).2 ≠ some BindError.tooManyFields ∧
    bindSlice .string (.sliceV []) (List.replicate 1001 "x") = (.sliceV [], some .tooManyFields) ∧
    (bindField [("xs", List.replicate 1001 "x")] ⟨"Xs", "xs", .slice .string, .sliceV []⟩).2 =
      some (.fieldError "Xs" .tooManyFields) := by
  have h1001 : (manyKeys 1001).length = 1001 := by
    unfold manyKeys; rw [List.length_map, List.length_range]
  have h1000 : (manyKeys 1000).length = 1000 := by
    unfold manyKeys; rw [List.length_map, List.length_range]
  have hrep : (List.replicate 1001 "x").length = 1001 := by rw [List.length_replicate]
  refine ⟨?_, ?_, ?_, ?_⟩
  · exact mapTo_maxFields_guard.1 _ _ (manyKeys_nodup 1001) (by rw [h1001]; decide)
  · exact mapTo_maxFields_guard.2.1 _ _ h1000
  · exact mapTo_maxFields_guard.2.2.1 _ _ _ (by rw [hrep]; decide)
  · exact mapTo_maxFields_guard.2.2.2 _ _ GoType.string _ (by decide) rfl rfl
      (by rw [hrep]; decide)

/-! ## Claim C8: destination pointer and struct checks -/

/-- Claim C8: once the size guard passes, a non-pointer destination fails
with the typed pointer-required error, and a pointer to a non-struct or a
nil pointer (whose dereference has kind Invalid, not Struct) fails with
the typed struct-required error; in no such case are any fields mapped
(the destination is returned unchanged). -/
theorem mapTo_destination_check :
    ∀ (values : Values), ¬ maxFields < values.length →
      (∀ k, mapTo values (.nonPtr k) = (.nonPtr k, some .pointerRequired)) ∧
      (∀ k, mapTo values (.ptrToNonStruct k) = (.ptrToNonStruct k, some .structRequired)) ∧
      mapTo values .nilPtr = (.nilPtr, some .structRequired) := by
  intro values h
  refine ⟨fun k => ?_, fun k => ?_, ?_⟩ <;> (unfold mapTo; rw [if_neg h])

/-- Witness for C8: the three destination shapes at a concrete input. -/
theorem mapTo_destination_check_witness :
    mapTo [("a", ["1"])] (.nonPtr "int") = (.nonPtr "int", some .pointerRequired) ∧
    mapTo [("a", ["1"])] (.ptrToNonStruct "slice") = (.ptrToNonStruct "slice", some .structRequired) ∧
    mapTo [("a", ["1"])] .nilPtr = (.nilPtr, some .structRequired) := by
  have h := mapTo_destination_check [("a", ["1"])] (by decide)
  exact ⟨h.1 "int", h.2.1 "slice", h.2.2⟩

/-! ## Claim C7: extractor error behaviour -/

/-- Claim C7: the cookie extractor fails exactly when the named cookie is
absent, surfacing `http.ErrNoCookie`, and succeeds with the cookie's
value otherwise; the path, header, query and form extractors never fail,
and store the empty string when the named value is absent. -/
theorem extractor_error_behaviour :
    ∀ (r : Request) (name : String),
      (r.cookie name = none → CookieValueExtractor.FromRequest name r = .error ErrNoCookie) ∧
      (∀ v, r.cookie name = some v → CookieValueExtractor.FromRequest name r = .ok v) ∧
      PathValueExtractor.FromRequest name r = .ok (r.pathValue name) ∧
      HeaderValueExtractor.FromRequest name r = .ok (r.headerGet name) ∧
      QueryValueExtractor.FromRequest name r = .ok (r.queryGet name) ∧
      FormValueExtractor.FromRequest name r = .ok (r.formValue name) ∧
      (r.pathParams.lookup name = none → r.pathValue name = "") ∧
      (r.headers.lookup name = none → r.headerGet name = "") ∧
      (r.queryParams.lookup name = none → r.queryGet name = "") ∧
      (r.formParams.lookup name = none → r.formValue name = "") := by
  intro r name
  refine ⟨?_, ?_, rfl, rfl, rfl, rfl, ?_, ?_, ?_, ?_⟩
  · intro h; unfold CookieValueExtractor.FromRequest; rw [h]
  · intro v h; unfold CookieValueExtractor.FromRequest; rw [h]
  · intro h; unfold Request.pathValue; rw [h]; rfl
  · intro h; unfold Request.headerGet; rw [h]; rfl
  · intro h; unfold Request.queryGet; rw [h]
  · intro h; unfold Request.formValue; rw [h]

/-- A request with no data at all, for the C7 witness. -/
def emptyRequest : Request := ⟨"GET", "", [], [], [], [], []⟩

/-- Witness for C7: a missing cookie errors, missing header/query/path
values come back as the empty string. -/
theorem extractor_error_behaviour_witness :
    CookieValueExtractor.FromRequest "session" emptyRequest = .error ErrNoCookie ∧
    HeaderValueExtractor.FromRequest "X-Token" emptyRequest = .ok "" ∧
    PathValueExtractor.FromRequest "id" emptyRequest = .ok "" ∧
    QueryValueExtractor.FromRequest "q" emptyRequest = .ok "" ∧
    FormValueExtractor.FromRequest "name" emptyRequest = .ok "" ∧
    CookieValueExtractor.FromRequest "session"
      { emptyRequest with cookies := [("session", "abc")] } = .ok "abc" := by
  refine ⟨(extractor_error_behaviour emptyRequest "session").1 rfl, ?_, ?_, ?_, ?_,
    (extractor_error_behaviour _ "session").2.1 "abc" rfl⟩
  · exact (extractor_error_behaviour emptyRequest "X-Token").2.2.2.1
  · exact (extractor_error_behaviour emptyRequest "id").2.2.1
  · exact (extractor_error_behaviour emptyRequest "q").2.2.2.2.1
  · exact (extractor_error_behaviour emptyRequest "name").2.2.2.2.2.1

/-! ## Claims C5 and C10: key resolution, the `-` skip, and the frame -/

/-- Helper: a field whose resolved key is `-` or has no matching input
key is returned by `bindField` untouched and without error. -/
theorem bindField_skip (values : Values) (f : GoField)
    (h : resolveKey f = "-" ∨ values.lookup (resolveKey f) = none) :
    bindField values f = (f, none) := by
  rcases h with h | h
  · simp [bindField, h]
  · by_cases hk : resolveKey f = "-"
    · simp [bindField, hk]
    · simp [bindField, hk, h]

/-- Helper: the field loop never touches a field whose resolved key is
`-` or absent from the input, whether or not the loop fails later. -/
theorem mapFields_preserves_unmatched (values : Values) :
    ∀ (fields : List GoField) (i : Nat) (f : GoField),
      fields.get? i = some f →
      (resolveKey f = "-" ∨ values.lookup (resolveKey f) = none) →
      ((mapFields values fields).1).get? i = some f := by
  intro fields
  induction fields with
  | nil => intro i f hf _; simp at hf
  | cons f0 rest ih =>
    intro i f hf hcond
    cases i with
    | zero =>
      simp only [List.get?] at hf
      injection hf with hf
      subst hf
      have hfix := bindField_skip values f0 hcond
      unfold mapFields
      rw [hfix]
      rfl
    | succ i =>
      simp only [List.get?] at hf
      unfold mapFields
      cases hb : bindField values f0 with
      | mk f0' eo =>
        cases eo with
        | some err => simpa using hf
        | none => simpa using ih i f hf hcond

/-- Claim C5: the lookup key of a field is the `form` tag when it is
non-empty, the declared field name otherwise; a field tagged `-` is never
set, for every input map (even one containing matching keys); and the
resolved key really is what the loop consults: with a non-empty tag the
field is bound from the tag's entry and left alone when the tag has no
entry (even if the name has one), while with an empty tag the name's
entry decides. -/
theorem field_key_resolution :
    ∀ (values : Values) (f : GoField),
      (resolveKey f = (if f.tag = "" then f.name else f.tag)) ∧
      (f.tag = "-" → ∀ (fields : List GoField) (i : Nat), fields.get? i = some f →
        ((mapFields values fields).1).get? i = some f) ∧
      (f.tag ≠ "" → f.tag ≠ "-" → values.lookup f.tag = none →
        bindField values f = (f, none)) ∧
      (f.tag ≠ "" → f.tag ≠ "-" → ∀ vs, values.lookup f.tag = some vs →
        bindField values f =
          ({ f with value := (setTo f.type f.value vs).1 },
            ((setTo f.type f.value vs).2).map (BindError.fieldError f.name))) ∧
      (f.tag = "" → values.lookup f.name = none → bindField values f = (f, none)) ∧
      (f.tag = "" → f.name ≠ "-" → ∀ vs, values.lookup f.name = some vs →
        bindField values f =
          ({ f with value := (setTo f.type f.value vs).1 },
            ((setTo f.type f.value vs).2).map (BindError.fieldError f.name))) := by
  intro values f
  have hres : resolveKey f = (if f.tag = "" then f.name else f.tag) := by
    by_cases h : f.tag = ""
    · simp only [resolveKey, cmpOr, h, if_pos]
      by_cases hn : f.name = "" <;> simp [hn]
    · simp [resolveKey, cmpOr, h]
  refine ⟨hres, ?_, ?_, ?_, ?_, ?_⟩
  · intro htag fields i hf
    refine mapFields_preserves_unmatched values fields i f hf (Or.inl ?_)
    rw [hres, htag]
    simp
  · intro h1 h2 hl
    exact bindField_skip values f (Or.inr (by rwa [hres, if_neg h1]))
  · intro h1 h2 vs hl
    have hk : resolveKey f = f.tag := by rw [hres, if_neg h1]
    simp [bindField, hk, h2, hl]
  · intro h1 hl
    by_cases h2 : f.name = "-"
    · exact bindField_skip values f (Or.inl (by rw [hres, if_pos h1]; exact h2))
    · exact bindField_skip values f (Or.inr (by rwa [hres, if_pos h1]))
  · intro h1 h2 vs hl
    have hk : resolveKey f = f.name := by rw [hres, if_pos h1]
    simp [bindField, hk, h2, hl]

/-- Witness for C5: a `-`-tagged field survives binding untouched even
with matching keys present; a tag overrides a matching declared name;
an untagged field binds by its name. -/
theorem field_key_resolution_witness :
    ((mapFields [("A", ["x"]), ("-", ["y"])] [⟨"A", "-", .string, .str "keep"⟩]).1).get? 0 =
      some ⟨"A", "-", .string, .str "keep"⟩ ∧
    bindField [("Name", ["v"])] ⟨"Name", "other", .string, .str "old"⟩ =
      (⟨"Name", "other", .string, .str "old"⟩, none) ∧
    bindField [("n", ["v"]), ("Name", ["w"])] ⟨"Name", "n", .string, .str "old"⟩ =
      (⟨"Name", "n", .string, .str "v"⟩, none) ∧
    bindField [("Name", ["w"])] ⟨"Name", "", .string, .str "old"⟩ =
      (⟨"Name", "", .string, .str "w"⟩, none) := by
  refine ⟨?_, ?_, ?_, ?_⟩
  · exact (field_key_resolution [("A", ["x"]), ("-", ["y"])] ⟨"A", "-", .string, .str "keep"⟩).2.1
      rfl [⟨"A", "-", .string, .str "keep"⟩] 0 rfl
  · exact (field_key_resolution _ _).2.2.1 (by decide) (by decide) rfl
  · have h := (field_key_resolution [("n", ["v"]), ("Name", ["w"])]
      ⟨"Name", "n", .string, .str "old"⟩).2.2.2.1 (by decide) (by decide) ["v"] rfl
    simpa using h
  · have h := (field_key_resolution [("Name", ["w"])]
      ⟨"Name", "", .string, .str "old"⟩).2.2.2.2.2 rfl (by decide) ["w"] rfl
    simpa using h

/-- Claim C10: on a successful bind, every field whose resolved key does
not occur in the input map, and every `-`-skipped field, holds exactly
the value it held before the call. -/
theorem mapTo_frame (values : Values) (fields out : List GoField)
    (h : mapTo values (.ptrToStruct fields) = (.ptrToStruct out, none)) :
    ∀ (i : Nat) (f : GoField), fields.get? i = some f →
      (resolveKey f = "-" ∨ values.lookup (resolveKey f) = none) →
      out.get? i = some f := by
  intro i f hf hcond
  unfold mapTo at h
  by_cases hlen : maxFields < values.length
  · rw [if_pos hlen] at h
    simp at h
  · rw [if_neg hlen] at h
    simp only [Prod.mk.injEq] at h
    obtain ⟨h1, _⟩ := h
    injection h1 with h1
    rw [← h1]
    exact mapFields_preserves_unmatched values fields i f hf hcond

/-- Witness for C10: a successful bind leaves the unmatched first field
with its prior value. -/
theorem mapTo_frame_witness :
    (mapTo [("x", ["1"])]
      (.ptrToStruct [⟨"Keep", "", .int 0, .intV 7⟩, ⟨"X", "x", .string, .str ""⟩])).1 =
      .ptrToStruct [⟨"Keep", "", .int 0, .intV 7⟩, ⟨"X", "x", .string, .str "1"⟩] ∧
    ([⟨"Keep", "", .int 0, .intV 7⟩, ⟨"X", "x", .string, (GoValue.str "1")⟩] : List GoField).get? 0 =
      some ⟨"Keep", "", .int 0, .intV 7⟩ := by
  refine ⟨rfl, ?_⟩
  exact mapTo_frame [("x", ["1"])]
    [⟨"Keep", "", .int 0, .intV 7⟩, ⟨"X", "x", .string, .str ""⟩]
    [⟨"Keep", "", .int 0, .intV 7⟩, ⟨"X", "x", .string, .str "1"⟩]
    rfl 0 ⟨"Keep", "", .int 0, .intV 7⟩ rfl (Or.inr rfl)

/-! ## Claim C6: conversion failures are field-named and abort the loop -/

/-- Claim C6: when the conversion of the matched input into field `i`
fails (and every earlier field binds without error), the field loop
returns the conversion error wrapped with field `i`'s declared name, the
fields before `i` hold exactly the values the loop already wrote (the
prefix binds as it would alone), the failing field holds the partially
mutated value `setTo` left behind, and every field after `i` is
untouched. -/
theorem mapFields_failfast (values : Values) :
    ∀ (fields : List GoField) (i : Nat) (f : GoField) (vs : List String) (e : ConvError),
      fields.get? i = some f →
      resolveKey f ≠ "-" →
      values.lookup (resolveKey f) = some vs →
      (setTo f.type f.value vs).2 = some e →
      (∀ j fj, j < i → fields.get? j = some fj → (bindField values fj).2 = none) →
      mapFields values fields =
        ((mapFields values (fields.take i)).1 ++
          { f with value := (setTo f.type f.value vs).1 } :: fields.drop (i + 1),
          some (.fieldError f.name e)) := by
  intro fields
  induction fields with
  | nil => intro i f vs e hf; simp at hf
  | cons f0 rest ih =>
    intro i f vs e hf hk hv hs hok
    cases i with
    | zero =>
      simp only [List.get?] at hf
      injection hf with hf
      subst hf
      have hb : bindField values f0 =
          ({ f0 with value := (setTo f0.type f0.value vs).1 },
            some (.fieldError f0.name e)) := by
        simp only [bindField]
        rw [if_neg hk, hv]
        show ({ f0 with value := (setTo f0.type f0.value vs).1 },
          Option.map (BindError.fieldError f0.name) (setTo f0.type f0.value vs).2) = _
        rw [hs]
        rfl
      unfold mapFields
      rw [hb]
      rfl
    | succ i =>
      have hb0 : (bindField values f0).2 = none :=
        hok 0 f0 (Nat.succ_pos i) rfl
      cases hb : bindField values f0 with
      | mk f0' eo =>
        have heo : eo = none := by rw [hb] at hb0; exact hb0
        subst heo
        have hrest := ih i f vs e (by simpa using hf) hk hv hs
          (fun j fj hj hfj => hok (j + 1) fj (Nat.succ_lt_succ hj) (by simpa using hfj))
        show mapFields values (f0 :: rest) =
          ((mapFields values (f0 :: rest.take i)).1 ++ _ :: rest.drop (i + 1), _)
        unfold mapFields
        rw [hb, hrest]
        rfl

/-- Witness for C6: a non-numeric string bound to an integer field
yields a field-named error, the earlier field keeps its freshly written
value and the later field is untouched. -/
theorem mapFields_failfast_witness :
    mapFields [("Name", ["bob"]), ("Age", ["abc"]), ("Z", ["true"])]
      [⟨"Name", "", .string, .str ""⟩, ⟨"Age", "", .int 0, .intV 0⟩, ⟨"Z", "", .bool, .boolV false⟩] =
      ((mapFields [("Name", ["bob"]), ("Age", ["abc"]), ("Z", ["true"])]
        ([⟨"Name", "", .string, .str ""⟩, ⟨"Age", "", .int 0, .intV 0⟩,
          ⟨"Z", "", .bool, .boolV false⟩].take 1)).1 ++
        { name := "Age", tag := "", type := .int 0,
          value := (setTo (.int 0) (.intV 0) ["abc"]).1 } ::
        ([⟨"Name", "", .string, .str ""⟩, ⟨"Age", "", .int 0, .intV 0⟩,
          ⟨"Z", "", .bool, .boolV false⟩].drop 2),
        some (.fieldError "Age" (.parseFailure "int" "abc"))) := by
  refine mapFields_failfast _ _ 1 ⟨"Age", "", .int 0, .intV 0⟩ ["abc"]
    (.parseFailure "int" "abc") rfl (by decide) rfl rfl ?_
  intro j fj hj hfj
  have hj0 : j = 0 := by omega
  subst hj0
  simp only [List.get?] at hfj
  injection hfj with hfj
  subst hfj
  rfl

/-! ## Claim C2: whole-body first, then per-field extraction wins -/

/-- Helper: on success, the generic pass leaves non-extractor fields
untouched and gives every extractor field exactly its `FromRequest`
result, independent of the value the field held on entry. -/
theorem genericBind_extractor_wins (r : Request) :
    ∀ (s out : BindStruct), GenericBinder.Bind r s = .ok out →
      ∀ (i : Nat) (fs : ExtractorSpec) (v : String), s.get? i = some (fs, v) →
        (fs.isExtractor = true → ∃ v', fs.extract r = .ok v' ∧ out.get? i = some (fs, v')) ∧
        (fs.isExtractor = false → out.get? i = some (fs, v)) := by
  intro s
  induction s with
  | nil =>
    intro out hout i fs v hi
    simp at hi
  | cons p rest ih =>
    intro out hout i fs v hi
    obtain ⟨f0, v0⟩ := p
    unfold GenericBinder.Bind at hout
    by_cases hx : f0.isExtractor
    · rw [if_pos hx] at hout
      cases hex : f0.extract r with
      | error e => rw [hex] at hout; simp at hout
      | ok v' =>
        rw [hex] at hout
        cases hrest : GenericBinder.Bind r rest with
        | error e => rw [hrest] at hout; simp at hout
        | ok outRest =>
          rw [hrest] at hout
          simp at hout
          subst hout
          cases i with
          | zero =>
            simp at hi
            obtain ⟨hfs, hv⟩ := hi
            subst hfs
            constructor
            · intro _; exact ⟨v', hex, rfl⟩
            · intro hcontra; rw [hcontra] at hx; simp at hx
          | succ i =>
            simp only [List.get?] at hi ⊢
            exact ih outRest hrest i fs v hi
    · rw [if_neg hx] at hout
      cases hrest : GenericBinder.Bind r rest with
      | error e => rw [hrest] at hout; simp at hout
      | ok outRest =>
        rw [hrest] at hout
        simp at hout
        subst hout
        cases i with
        | zero =>
          simp at hi
          obtain ⟨hfs, hv⟩ := hi
          subst hfs
          subst hv
          constructor
          · intro hcontra; rw [hcontra] at hx; simp at hx
          · intro _; rfl
        | succ i =>
          simp only [List.get?] at hi ⊢
          exact ih outRest hrest i fs v hi

/-- Claim C2: `ShouldBind` runs the whole-body binder selected from the
method and Content-Type first and the generic per-field extractor pass
only afterwards; consequently, whenever `ShouldBind` succeeds, every
field implementing the extraction contract ends up holding exactly the
value its `FromRequest` produced — the field-level extractor wins over
whatever the whole-body decode wrote into the field — while non-extractor
fields keep the whole-body result. -/
theorem shouldBind_two_pass
    (bodyBind : Request → BindStruct → Except String BindStruct)
    (r : Request) (s out : BindStruct)
    (h : ShouldBind bodyBind r s = .ok out) :
    ∃ mid, bodyBind r s = .ok mid ∧ GenericBinder.Bind r mid = .ok out ∧
      ∀ (i : Nat) (fs : ExtractorSpec) (v : String), mid.get? i = some (fs, v) →
        (fs.isExtractor = true → ∃ v', fs.extract r = .ok v' ∧ out.get? i = some (fs, v')) ∧
        (fs.isExtractor = false → out.get? i = some (fs, v)) := by
  unfold ShouldBind at h
  cases hb : bodyBind r s with
  | error e => rw [hb] at h; simp at h
  | ok mid =>
    rw [hb] at h
    exact ⟨mid, rfl, h, fun i fs v hi => genericBind_extractor_wins r mid out h i fs v hi⟩

/-- Field specs for the C2 witness: one extractor field (extracting the
request method) and one plain field. -/
def demoExtractorSpec : ExtractorSpec := ⟨true, fun r => .ok r.method⟩

/-- A non-extractor field spec for the C2 witness. -/
def demoPlainSpec : ExtractorSpec := ⟨false, fun _ => .error "unused"⟩

/-- A whole-body binder for the C2 witness that overwrites every field
with the string `body`. -/
def demoBodyBind : Request → BindStruct → Except String BindStruct :=
  fun _ s => .ok (s.map (fun p => (p.1, "body")))

/-- A POST request for the C2 witness. -/
def demoRequest : Request := ⟨"POST", "application/json", [], [], [], [], []⟩

/-- Witness for C2: after the two passes, the extractor field holds the
extracted method `POST` (not the `body` value the whole-body pass wrote),
and the plain field holds `body`. -/
theorem shouldBind_two_pass_witness :
    ∃ mid, demoBodyBind demoRequest [(demoExtractorSpec, "init"), (demoPlainSpec, "init")] = .ok mid ∧
      GenericBinder.Bind demoRequest mid =
        .ok [(demoExtractorSpec, "POST"), (demoPlainSpec, "body")] ∧
      ∀ (i : Nat) (fs : ExtractorSpec) (v : String), mid.get? i = some (fs, v) →
        (fs.isExtractor = true → ∃ v', fs.extract demoRequest = .ok v' ∧
          ([(demoExtractorSpec, "POST"), (demoPlainSpec, "body")] : BindStruct).get? i = some (fs, v')) ∧
        (fs.isExtractor = false →
          ([(demoExtractorSpec, "POST"), (demoPlainSpec, "body")] : BindStruct).get? i = some (fs, v)) :=
  shouldBind_two_pass demoBodyBind demoRequest
    [(demoExtractorSpec, "init"), (demoPlainSpec, "init")]
    [(demoExtractorSpec, "POST"), (demoPlainSpec, "body")] rfl

/-! ## Claim C9: unsupported field kinds -/

/-- Counterexample to C9 as stated: a field of unsupported kind (here a
struct-kind field) whose resolved key is present in the input binds
WITHOUT an error when the matched value is the empty string — `setValue`
zeroes the field before the kind switch — so binding such a field does
not always produce an unsupported-kind error. -/
theorem unsupported_kind_empty_counterexample :
    mapTo [("s", [""])] (.ptrToStruct [⟨"S", "s", .other "struct", .otherV "old"⟩]) =
      (.ptrToStruct [⟨"S", "s", .other "struct", .otherV ""⟩], none) := rfl

/-- Model of the condition of `setValue`'s default branch: the kind name
an unsupported-kind conversion reports, `none` for the scalar kinds the
switch handles. -/
def setValueKindError : GoType → Option String
  | .string => none
  | .int _ => none
  | .uint _ => none
  | .float _ => none
  | .bool => none
  | t => some (kindName t)

/-- Helper: the type whose conversion `bindSlice` attempts per element:
pointer-element slices convert into the pointee (`bindPtrSlice`), every
other slice converts the element itself (`bindValueSlice`). -/
def sliceElemTarget : GoType → GoType
  | .ptr inner => inner
  | t => t

/-- Helper: `setValue` on a kind its switch does not handle leaves the
value untouched and reports the kind's name (for non-empty input). -/
theorem setValue_unsupported (t : GoType) (v : GoValue) (s k : String)
    (hk : setValueKindError t = some k) (hs : s ≠ "") :
    setValue t v s = (v, some (.unsupportedType k)) := by
  cases t with
  | string => simp [setValueKindError] at hk
  | int w => simp [setValueKindError] at hk
  | uint w => simp [setValueKindError] at hk
  | float w => simp [setValueKindError] at hk
  | bool => simp [setValueKindError] at hk
  | ptr e =>
    simp [setValueKindError, kindName] at hk
    subst hk
    unfold setValue
    rw [if_neg hs]
    rfl
  | slice e =>
    simp [setValueKindError, kindName] at hk
    subst hk
    unfold setValue
    rw [if_neg hs]
    rfl
  | other k2 =>
    simp [setValueKindError, kindName] at hk
    subst hk
    unfold setValue
    rw [if_neg hs]
    rfl

/-- Helper: the element loop of a value slice fails at element 0, naming
the kind, when the element conversion kind is unsupported and the first
value is non-empty. -/
theorem bindValueSliceElems_unsupported (t : GoType) (s k : String) (rest : List String)
    (hk : setValueKindError t = some k) (hs : s ≠ "") :
    bindValueSliceElems t 0 (s :: rest) = .error (.sliceElem 0 (.unsupportedType k)) := by
  unfold bindValueSliceElems
  rw [setValue_unsupported t (zeroValue t) s k hk hs]

/-- Helper: a slice bind whose element conversion kind is unsupported
fails at element 0, naming the kind, for a non-empty first value within
the element-count guard; the field value is untouched. -/
theorem bindSlice_unsupported (elemT : GoType) (v : GoValue) (vs : List String)
    (s k : String) (hk : setValueKindError (sliceElemTarget elemT) = some k)
    (hlen : ¬ maxFields < vs.length) (hh : vs.head? = some s) (hs : s ≠ "") :
    bindSlice elemT v vs = (v, some (.sliceElem 0 (.unsupportedType k))) := by
  obtain ⟨rest, hrest⟩ : ∃ rest, vs = s :: rest := by
    cases vs with
    | nil => simp at hh
    | cons a rest => simp at hh; exact ⟨rest, by rw [hh]⟩
  subst hrest
  unfold bindSlice
  rw [if_neg hlen]
  cases elemT with
  | string => simp [sliceElemTarget, setValueKindError] at hk
  | int w => simp [sliceElemTarget, setValueKindError] at hk
  | uint w => simp [sliceElemTarget, setValueKindError] at hk
  | float w => simp [sliceElemTarget, setValueKindError] at hk
  | bool => simp [sliceElemTarget, setValueKindError] at hk
  | ptr inner =>
    show bindPtrSlice inner v (s :: rest) = _
    unfold bindPtrSlice
    rw [bindValueSliceElems_unsupported inner s k rest
      (show setValueKindError inner = some k from hk) hs]
  | slice e =>
    show bindValueSlice (.slice e) v (s :: rest) = _
    unfold bindValueSlice
    rw [bindValueSliceElems_unsupported (.slice e) s k rest
      (show setValueKindError (.slice e) = some k from hk) hs]
  | other k2 =>
    show bindValueSlice (.other k2) v (s :: rest) = _
    unfold bindValueSlice
    rw [bindValueSliceElems_unsupported (.other k2) s k rest
      (show setValueKindError (.other k2) = some k from hk) hs]

/-- Helper: a conversion error surfaces out of `bindField` wrapped with
the field's declared name. -/
theorem bindField_conv_error (values : Values) (f : GoField) (vs : List String)
    (E : ConvError) (hk : resolveKey f ≠ "-")
    (hv : values.lookup (resolveKey f) = some vs)
    (hset : (setTo f.type f.value vs).2 = some E) :
    (bindField values f).2 = some (.fieldError f.name E) := by
  simp only [bindField]
  rw [if_neg hk, hv]
  show Option.map (BindError.fieldError f.name) (setTo f.type f.value vs).2 = _
  rw [hset]
  rfl

/-- Claim C9 (amended): for every destination field whose kind is not
among the supported ones, binding the field when its resolved key is
present in the input with a non-empty first value produces an error,
wrapped with the field's name, that names the unsupported kind:
a field of a bare unsupported kind (struct, map, chan, func, ...) names
that kind; a pointer field whose pointee kind is unsupported for scalar
conversion (an unsupported kind, or a second pointer) names the pointee
kind; a slice field — also one reached through a pointer — whose element
conversion kind is unsupported (for example slice-of-struct or
slice-of-slice, including pointer-element slices with such pointees)
names that kind from element 0, within the 1000-element guard.  With an
empty first matched value no error is produced (the counterexample): the
field is zeroed instead. -/
theorem unsupported_kind_error :
    (∀ (values : Values) (f : GoField) (k : String) (vs : List String) (s : String),
      f.type = .other k → resolveKey f ≠ "-" →
      values.lookup (resolveKey f) = some vs → vs.head? = some s → s ≠ "" →
      bindField values f = (f, some (.fieldError f.name (.unsupportedType k)))) ∧
    (∀ (values : Values) (f : GoField) (t' : GoType) (k : String) (vs : List String) (s : String),
      f.type = .ptr t' → (∀ e, t' ≠ .slice e) → setValueKindError t' = some k →
      resolveKey f ≠ "-" → values.lookup (resolveKey f) = some vs →
      vs.head? = some s → s ≠ "" →
      (bindField values f).2 = some (.fieldError f.name (.unsupportedType k))) ∧
    (∀ (values : Values) (f : GoField) (elemT : GoType) (k : String) (vs : List String) (s : String),
      f.type = .slice elemT → setValueKindError (sliceElemTarget elemT) = some k →
      resolveKey f ≠ "-" → values.lookup (resolveKey f) = some vs →
      ¬ maxFields < vs.length → vs.head? = some s → s ≠ "" →
      (bindField values f).2 = some (.fieldError f.name (.sliceElem 0 (.unsupportedType k)))) ∧
    (∀ (values : Values) (f : GoField) (elemT : GoType) (k : String) (vs : List String) (s : String),
      f.type = .ptr (.slice elemT) → setValueKindError (sliceElemTarget elemT) = some k →
      resolveKey f ≠ "-" → values.lookup (resolveKey f) = some vs →
      ¬ maxFields < vs.length → vs.head? = some s → s ≠ "" →
      (bindField values f).2 = some (.fieldError f.name (.sliceElem 0 (.unsupportedType k)))) := by
  refine ⟨?_, ?_, ?_, ?_⟩
  · intro values f k vs s ht hk hv hh hs
    obtain ⟨rest, hrest⟩ : ∃ rest, vs = s :: rest := by
      cases vs with
      | nil => simp at hh
      | cons a rest => simp at hh; exact ⟨rest, by rw [hh]⟩
    have hset : setTo f.type f.value vs = (f.value, some (.unsupportedType k)) := by
      rw [ht, hrest]
      show setValue (.other k) f.value s = _
      unfold setValue
      rw [if_neg hs]
      rfl
    simp only [bindField]
    rw [if_neg hk, hv]
    show ({ f with value := (setTo f.type f.value vs).1 },
      Option.map (BindError.fieldError f.name) (setTo f.type f.value vs).2) = _
    rw [hset]
    rfl
  · intro values f t' k vs s ht hns hkerr hk hv hh hs
    obtain ⟨rest, hrest⟩ : ∃ rest, vs = s :: rest := by
      cases vs with
      | nil => simp at hh
      | cons a rest => simp at hh; exact ⟨rest, by rw [hh]⟩
    refine bindField_conv_error values f vs _ hk hv ?_
    rw [ht, hrest]
    have hgen : ∀ w : GoValue, (setToElem t' w (s :: rest)).2 = some (.unsupportedType k) := by
      intro w
      have hred : setToElem t' w (s :: rest) = setValue t' w s := by
        cases t' with
        | slice e => exact absurd rfl (hns e)
        | string => rfl
        | int _ => rfl
        | uint _ => rfl
        | float _ => rfl
        | bool => rfl
        | ptr _ => rfl
        | other _ => rfl
      rw [hred, setValue_unsupported t' w s k hkerr hs]
    exact hgen _
  · intro values f elemT k vs s ht hkerr hk hv hlen hh hs
    refine bindField_conv_error values f vs _ hk hv ?_
    rw [ht]
    show (bindSlice elemT f.value vs).2 = _
    rw [bindSlice_unsupported elemT f.value vs s k hkerr hlen hh hs]
  · intro values f elemT k vs s ht hkerr hk hv hlen hh hs
    refine bindField_conv_error values f vs _ hk hv ?_
    rw [ht]
    have hgen : ∀ w : GoValue,
        (setToElem (.slice elemT) w vs).2 = some (.sliceElem 0 (.unsupportedType k)) := by
      intro w
      show (bindSlice elemT w vs).2 = _
      rw [bindSlice_unsupported elemT w vs s k hkerr hlen hh hs]
    exact hgen _

/-- Witness for the amended C9: a struct-kind field, a pointer-to-struct
field, a slice-of-slice field and a pointer-to-slice-of-struct field,
each with a non-empty matched value, error naming the unsupported
kind. -/
theorem unsupported_kind_error_witness :
    bindField [("s", ["x"])] ⟨"S", "s", .other "struct", .otherV "old"⟩ =
      (⟨"S", "s", .other "struct", .otherV "old"⟩,
        some (.fieldError "S" (.unsupportedType "struct"))) ∧
    (bindField [("p", ["x"])] ⟨"P", "p", .ptr (.other "struct"), .ptrV none⟩).2 =
      some (.fieldError "P" (.unsupportedType "struct")) ∧
    (bindField [("m", ["x"])] ⟨"M", "m", .slice (.slice (.int 0)), .sliceV []⟩).2 =
      some (.fieldError "M" (.sliceElem 0 (.unsupportedType "slice"))) ∧
    (bindField [("q", ["x"])] ⟨"Q", "q", .ptr (.slice (.other "struct")), .ptrV none⟩).2 =
      some (.fieldError "Q" (.sliceElem 0 (.unsupportedType "struct"))) := by
  refine ⟨?_, ?_, ?_, ?_⟩
  · exact unsupported_kind_error.1 _ _ "struct" ["x"] "x" rfl (by decide) rfl rfl (by decide)
  · exact unsupported_kind_error.2.1 _ _ (.other "struct") "struct" ["x"] "x" rfl
      (fun e h => GoType.noConfusion h) rfl (by decide) rfl rfl (by decide)
  · exact unsupported_kind_error.2.2.1 _ _ (.slice (.int 0)) "slice" ["x"] "x" rfl rfl
      (by decide) rfl (by decide) rfl (by decide)
  · exact unsupported_kind_error.2.2.2 _ _ (.other "struct") "struct" ["x"] "x" rfl rfl
      (by decide) rfl (by decide) rfl (by decide)

/-! ## Claim C4: static file serving (spec-modelled) -/

/-- Claim C4 (spec-modelled handler): a GET request for any file mounted
under a static route — the mount path being the base path joined with
the route path, including a group base — returns status 200 with exactly
the file's contents; in particular `/static/test.txt` and, nested under
a group, `/api/assets/test.txt` serve the body `hello static world`. -/
theorem static_file_serving :
    (∀ (mountPath : List Char) (fs : FileSys) (file : List Char) (content : String),
      fs.lookup file = some content →
      staticServe mountPath fs "GET".data (mountPath ++ '/' :: file) = some (200, content)) ∧
    staticServe (joinPath "/".data "/static".data) [("test.txt".data, "hello static world")]
      "GET".data "/static/test.txt".data = some (200, "hello static world") ∧
    staticServe (joinPath "/api".data "/assets".data) [("test.txt".data, "hello static world")]
      "GET".data "/api/assets/test.txt".data = some (200, "hello static world") := by
  refine ⟨?_, by decide, by decide⟩
  intro mountPath fs file content h
  unfold staticServe
  have hsplit : mountPath ++ '/' :: file = (mountPath ++ ['/']) ++ file := by simp
  have hpre : (mountPath ++ ['/']).isPrefixOf (mountPath ++ '/' :: file) = true := by
    rw [hsplit, List.isPrefixOf_iff_prefix]
    exact List.prefix_append _ _
  rw [if_pos ⟨rfl, hpre⟩]
  have hdrop : (mountPath ++ '/' :: file).drop (mountPath.length + 1) = file := by
    rw [hsplit]
    have : mountPath.length + 1 = (mountPath ++ ['/']).length := by simp
    rw [this, List.drop_left]
  rw [hdrop, h]

/-- Witness for C4: the general statement applied to the mounted test
file of the repository's static-serving test. -/
theorem static_file_serving_witness :
    staticServe "/static".data [("test.txt".data, "hello static world")]
      "GET".data ("/static".data ++ '/' :: "test.txt".data) = some (200, "hello static world") :=
  static_file_serving.1 "/static".data [("test.txt".data, "hello static world")]
    "test.txt".data "hello static world" rfl

end Hx
